import Mathlib

/-!
# DXF-Scanner: the native primitive extractor (`corner_detector.cpp`)

A shallow embedding of `CornerDetector` and a verification of the enumeration of its
arc fitter (`detectArcs`), of the buffer adapter (`imageDataToMat`, `matToImageData`)
and of the orchestrator (`processImage`).

Conventions of the embedding.

* `double` is `Float`, the IEEE 754 binary64 type: `+`, `-`, `*`, `/`, comparison,
  `std::sqrt`, `std::acos`, `std::atan2` and `std::abs` are the binary64 operations of
  that type, with their rounding, infinities and NaN. Each operation of the source is
  one operation here, in the order in which the source evaluates it; no two operations
  are fused. Nothing is assumed about the values these operations return.
* `size_t` is `Nat` with explicit reduction modulo `2 ^ 64` where a subtraction
  or a product could wrap.
* `int` is `Int`.
* An unchecked `operator[]` outside the vector is `none`.
-/

namespace DXFScanner

/-! ## Data model (`corner_detector.h`) -/

/-- Point2D of `corner_detector.h`. -/
structure Point2D where
  x : Float
  y : Float

/-- Line of `corner_detector.h`; the field `end` is spelled `stop`, `end` being reserved. -/
structure Line where
  start : Point2D
  stop : Point2D

/-- Arc of `corner_detector.h`. -/
structure Arc where
  center : Point2D
  radius : Float
  startAngle : Float
  endAngle : Float

/-- Circle of `corner_detector.h`. -/
structure Circle where
  center : Point2D
  radius : Float

/-- GeometricPrimitives of `corner_detector.h`. -/
structure GeometricPrimitives where
  lines : List Line
  arcs : List Arc
  circles : List Circle

/-- The data members of `CornerDetector` (`corner_detector.h`, lines 70-88). -/
structure CornerDetector where
  cornerQualityLevel : Float
  cornerMinDistance : Int
  cornerBlockSize : Int
  cornerKSize : Int
  cornerK : Float
  lineRho : Float
  lineTheta : Float
  lineThreshold : Int
  lineMinLineLength : Float
  lineMaxLineGap : Float
  circleDp : Float
  circleMinDist : Float
  circleParam1 : Float
  circleParam2 : Float
  circleMinRadius : Int
  circleMaxRadius : Int

/-! ## Machine arithmetic and loops -/

/-- Width of `size_t` on the 64-bit targets of the library. -/
def sizeBits : Nat := 64

/-- Unsigned subtraction `a - b` on `size_t`. -/
def sizeSub (a b : Nat) : Nat := (a + 2 ^ sizeBits - b % 2 ^ sizeBits) % 2 ^ sizeBits

/-- Unsigned product `a * b` on `size_t`. -/
def sizeMul (a b : Nat) : Nat := (a * b) % 2 ^ sizeBits

/-- Conversion of an `int` to `size_t`. -/
def sizeOfInt (v : Int) : Nat := (v % 2 ^ sizeBits).toNat

/-- The loop `for (size_t v = lo; v < hi; ++v) s = body v s`. The increment is not
reduced modulo `2 ^ 64`: inside the loop `v < hi`, so `v + 1` cannot wrap whenever
`hi` is a `size_t` value. -/
def forLoop {σ : Type} (hi : Nat) (body : Nat → σ → σ) (lo : Nat) (s : σ) : σ :=
  if lo < hi then forLoop hi body (lo + 1) (body lo s) else s
termination_by hi - lo

/-- The constant `CV_PI` of the image library, a `double` literal. -/
def CV_PI : Float := 3.1415926535897932384626433832795

/-- The library function `std::min` on `double`: the second argument when it is less
than the first, else the first (so the first when either is NaN). -/
def stdMin (a b : Float) : Float := if b < a then b else a

/-- The library function `std::max` on `double`: the second argument when the first is
less than it, else the first (so the first when either is NaN). -/
def stdMax (a b : Float) : Float := if a < b then b else a

/-! ## Helper functions of `CornerDetector` -/

/-- The constructor `CornerDetector::CornerDetector` (lines 8-30). -/
def CornerDetector.create : CornerDetector :=
  { cornerQualityLevel := 0.01
    cornerMinDistance := 10
    cornerBlockSize := 3
    cornerKSize := 3
    cornerK := 0.04
    lineRho := 1.0
    lineTheta := CV_PI / 180.0
    lineThreshold := 50
    lineMinLineLength := 30
    lineMaxLineGap := 10
    circleDp := 1.0
    circleMinDist := 30
    circleParam1 := 50
    circleParam2 := 30
    circleMinRadius := 5
    circleMaxRadius := 100 }

/-- The function `CornerDetector::calculateDistance`. -/
def calculateDistance (p1 p2 : Point2D) : Float :=
  let dx := p2.x - p1.x
  let dy := p2.y - p1.y
  Float.sqrt (dx * dx + dy * dy)

/-- The function `CornerDetector::calculateAngle`: the angle at `p1`, in degrees. -/
def calculateAngle (p1 p2 p3 : Point2D) : Float :=
  let a := calculateDistance p2 p3
  let b := calculateDistance p1 p3
  let c := calculateDistance p1 p2
  if a == 0 || b == 0 || c == 0 then 0
  else
    let cosA := (b * b + c * c - a * a) / (2 * b * c)
    let cosA := stdMax (-1.0) (stdMin 1.0 cosA)
    Float.acos cosA * 180.0 / CV_PI

/-! ## The arc fitter `CornerDetector::detectArcs` -/

/-- The test of lines 181-183: all three angles strictly between 30 and 150 degrees. -/
def angleFilter (angle1 angle2 angle3 : Float) : Bool :=
  angle1 > 30 && angle1 < 150 && angle2 > 30 && angle2 < 150 && angle3 > 30 && angle3 < 150

/-- The local `A` of line 190. -/
def detA (p1 p2 p3 : Point2D) : Float :=
  p1.x * (p2.y - p3.y) - p1.y * (p2.x - p3.x) + p2.x * p3.y - p3.x * p2.y

/-- The local `B` of line 191. -/
def detB (p1 p2 p3 : Point2D) : Float :=
  (p1.x * p1.x + p1.y * p1.y) * (p3.y - p2.y) + (p2.x * p2.x + p2.y * p2.y) * (p1.y - p3.y)
    + (p3.x * p3.x + p3.y * p3.y) * (p2.y - p1.y)

/-- The local `C` of line 192. -/
def detC (p1 p2 p3 : Point2D) : Float :=
  (p1.x * p1.x + p1.y * p1.y) * (p2.x - p3.x) + (p2.x * p2.x + p2.y * p2.y) * (p3.x - p1.x)
    + (p3.x * p3.x + p3.y * p3.y) * (p1.x - p2.x)

/-- Lines 195-204: the arc built when `|A| > 1e-6`. -/
def circleArc (p1 p2 p3 : Point2D) : Arc :=
  let A := detA p1 p2 p3
  let B := detB p1 p2 p3
  let C := detC p1 p2 p3
  let centerX := -B / (2 * A)
  let centerY := -C / (2 * A)
  let radius :=
    Float.sqrt ((p1.x - centerX) * (p1.x - centerX) + (p1.y - centerY) * (p1.y - centerY))
  { center := ⟨centerX, centerY⟩
    radius := radius
    startAngle := Float.atan2 (p1.y - centerY) (p1.x - centerX)
    endAngle := Float.atan2 (p3.y - centerY) (p3.x - centerX) }

/-- Lines 175-208: what the innermost loop body does with the three points: the arc it
pushes, or `none` when it pushes nothing. -/
def fitTriple (p1 p2 p3 : Point2D) : Option Arc :=
  let angle1 := calculateAngle p1 p2 p3
  let angle2 := calculateAngle p2 p3 p1
  let angle3 := calculateAngle p3 p1 p2
  if angleFilter angle1 angle2 angle3 then
    if Float.abs (detA p1 p2 p3) > 1e-6 then some (circleArc p1 p2 p3) else none
  else none

/-- Lines 171-208: the innermost loop body at indices `i`, `j`, `k`, acting on the
vector `arcs`. The result is `none` when an index is outside `corners`. -/
def tripleBody (corners : List Point2D) (i j k : Nat) (arcs : List Arc) :
    Option (List Arc) :=
  match corners[i]?, corners[j]?, corners[k]? with
  | some p1, some p2, some p3 =>
    match fitTriple p1 p2 p3 with
    | some arc => some (arcs ++ [arc])
    | none => some arcs
  | _, _, _ => none

/-- Lines 168-211: the three nested loops over a vector of `n` elements, with the
innermost body as a parameter. -/
def tripleLoops {σ : Type} (n : Nat) (body : Nat → Nat → Nat → σ → σ) (init : σ) : σ :=
  forLoop (sizeSub n 2) (fun i s =>
    forLoop (sizeSub n 1) (fun j s =>
      forLoop n (fun k s => body i j k s) (j + 1) s) (i + 1) s) 0 init

/-- The index triples in the order in which the loops of `detectArcs` reach their
body. -/
def visitedTriples (n : Nat) : List (Nat × Nat × Nat) :=
  tripleLoops n (fun i j k acc => acc ++ [(i, j, k)]) []

/-! ## The image adapter -/

/-- One byte of a pixel buffer (`uint8_t`). -/
abbrev Byte := Fin 256

/-- Modelled from the spec: the image representation of the image library (`cv::Mat`),
which is not part of the repository. It is the part that the adapter reads: the header
of an 8-bit matrix (`CV_8UC1`, `CV_8UC3`, `CV_8UC4`) and the bytes its data pointer
addresses; `none` is the null pointer of the default-constructed matrix. The fields
follow the members of `cv::Mat` that the source names; `step` is the number of bytes
from one row to the next. -/
structure Mat where
  rows : Int
  cols : Int
  channels : Nat
  step : Nat
  continuous : Bool
  data : Option (List Byte)

namespace Mat

/-- Modelled from the spec: the default-constructed, empty matrix `cv::Mat ()` of the
image library. -/
def default : Mat :=
  { rows := 0, cols := 0, channels := 1, step := 0, continuous := false, data := none }

/-- Modelled from the spec: the constructor `cv::Mat (rows, cols, CV_8UCn, data)` of the
image library over user data with the automatic step: no padding between rows, hence a
continuous matrix in row-major, channel-interleaved order. -/
def ofData (rows cols : Int) (channels : Nat) (data : List Byte) : Mat :=
  { rows := rows, cols := cols, channels := channels,
    step := sizeMul (sizeOfInt cols) channels, continuous := true, data := some data }

/-- Modelled from the spec: the library method `cv::Mat::total`, the number of pixels
`(size_t) rows * cols`. -/
def total (m : Mat) : Nat := sizeMul (sizeOfInt m.rows) (sizeOfInt m.cols)

/-- Modelled from the spec: the library method `cv::Mat::elemSize`, the bytes per pixel
of an 8-bit matrix. -/
def elemSize (m : Mat) : Nat := m.channels

/-- Modelled from the spec: the library method `cv::Mat::isContinuous`, true for the
contiguous representation and false for the row-strided one. -/
def isContinuous (m : Mat) : Bool := m.continuous

/-- Modelled from the spec: the library method `cv::Mat::empty`, true for null data or
no pixel. -/
def empty (m : Mat) : Bool := m.data.isNone || m.total == 0

/-- The bytes from the data pointer on; nothing for the null pointer. -/
def bytes (m : Mat) : List Byte := m.data.getD []

/-- Modelled from the spec: the library row pointer `cv::Mat::ptr<uint8_t> (i)`, the
bytes from row `i` on. -/
def ptr (m : Mat) (i : Nat) : List Byte := m.bytes.drop (i * m.step)

end Mat

/-- The function `CornerDetector::imageDataToMat`. -/
def imageDataToMat (imageData : List Byte) (width height channels : Int) : Mat :=
  if channels = 1 then Mat.ofData height width 1 imageData
  else if channels = 3 then Mat.ofData height width 3 imageData
  else if channels = 4 then Mat.ofData height width 4 imageData
  else Mat.default

/-- The function `CornerDetector::matToImageData`. The byte range `[p, p + len)` read
from a pointer `p` is the first `len` bytes of what `p` addresses. -/
def matToImageData (mat : Mat) : List Byte :=
  if mat.isContinuous then
    mat.bytes.take (sizeMul mat.total mat.elemSize)
  else
    forLoop mat.rows.toNat
      (fun i data => data ++ (mat.ptr i).take ((mat.cols * (mat.channels : Int)).toNat)) 0 []

/-- The function `CornerDetector::detectArcs`. The result is `none` when the loops read
outside `corners`. The parameter `image` is not used, as in the source, hence its
underscore. -/
def detectArcs (_image : Mat) (corners : List Point2D) : Option (List Arc) :=
  if corners.length < 3 then some []
  else
    tripleLoops corners.length
      (fun i j k arcs => arcs.bind (tripleBody corners i j k)) (some [])

/-! ## The extraction stages and the orchestrator -/

/-- Modelled from the spec: an exception thrown by a call into the image library
(`cv::Exception`), which is not part of the repository. -/
structure CvException where
  code : Int
  deriving DecidableEq

/-- Modelled from the spec: the calls into the image library made by the three
extraction stages. Each field stands for the chain of library calls of one stage, with
the arguments the stage passes, and returns what the last call stores or the exception
that one of the calls throws.

* `cornerFeatures image blockSize ksize k qualityLevel minDistance` is lines 63-85:
  grayscale conversion or copy, Gaussian smoothing with a 5 x 5 kernel, the corner
  response, its normalisation to 0..255 and the extraction of at most 100 feature points
  (`cv::Point2f`).
* `lineSegments image rho theta threshold minLineLength maxLineGap` is lines 98-113:
  grayscale conversion or copy, edge detection with thresholds 50 and 150, and the
  probabilistic line transform (`cv::Vec4i`).
* `circleTransform image dp minDist param1 param2 minRadius maxRadius` is lines 129-144:
  grayscale conversion or copy, Gaussian smoothing with a 9 x 9 kernel and sigma 2, and
  the circle transform (`cv::Vec3f`). -/
structure ImageLibrary where
  cornerFeatures : Mat → Int → Int → Float → Float → Int →
    Except CvException (List (Float × Float))
  lineSegments : Mat → Float → Float → Int → Float → Float →
    Except CvException (List (Int × Int × Int × Int))
  circleTransform : Mat → Float → Float → Float → Float → Int → Int →
    Except CvException (List (Float × Float × Float))

/-- The function `CornerDetector::detectCorners`: the library calls, then the copy of
lines 88-90 into `Point2D`. -/
def detectCorners (det : CornerDetector) (lib : ImageLibrary) (image : Mat) :
    Except CvException (List Point2D) :=
  match lib.cornerFeatures image det.cornerBlockSize det.cornerKSize det.cornerK
      det.cornerQualityLevel det.cornerMinDistance with
  | .error e => .error e
  | .ok cvCorners => .ok (cvCorners.map fun corner => ⟨corner.1, corner.2⟩)

/-- The function `CornerDetector::detectLines`: the library calls, then the copy of
lines 116-121 into `Line`. The parameter `corners` is not used, as in the source. -/
def detectLines (det : CornerDetector) (lib : ImageLibrary) (image : Mat)
    (_corners : List Point2D) : Except CvException (List Line) :=
  match lib.lineSegments image det.lineRho det.lineTheta det.lineThreshold
      det.lineMinLineLength det.lineMaxLineGap with
  | .error e => .error e
  | .ok cvLines => .ok (cvLines.map fun cvLine =>
      { start := ⟨Float.ofInt cvLine.1, Float.ofInt cvLine.2.1⟩
        stop := ⟨Float.ofInt cvLine.2.2.1, Float.ofInt cvLine.2.2.2⟩ })

/-- The function `CornerDetector::detectCircles`: the library calls, then the copy of
lines 147-152 into `Circle`. -/
def detectCircles (det : CornerDetector) (lib : ImageLibrary) (image : Mat) :
    Except CvException (List Circle) :=
  match lib.circleTransform image det.circleDp det.circleMinDist det.circleParam1
      det.circleParam2 det.circleMinRadius det.circleMaxRadius with
  | .error e => .error e
  | .ok cvCircles => .ok (cvCircles.map fun cvCircle =>
      { center := ⟨cvCircle.1, cvCircle.2.1⟩, radius := cvCircle.2.2 })

/-- How a call of `processImage` can end other than by returning.

* `InvalidFormat` is the failure named by the specification.
* `Library e` is an exception `e` thrown by the image library and not caught.
* `Undefined` is behaviour that the language or the library leaves undefined: a read
  outside a vector or outside the pixel buffer, or a negative image size handed to the
  library. -/
inductive PipelineError where
  | InvalidFormat
  | Library (e : CvException)
  | Undefined
  deriving DecidableEq

/-- The pixel buffer covers the image that the header describes: the sizes are not
negative and the buffer holds at least `width * height * channels` bytes. The source
makes no such test; where it fails, the stages read outside the buffer or receive a
negative size. -/
def bufferCovers (imageData : List Byte) (width height channels : Int) : Prop :=
  0 ≤ width ∧ 0 ≤ height ∧ width * height * channels ≤ (imageData.length : Int)

instance (imageData : List Byte) (width height channels : Int) :
    Decidable (bufferCovers imageData width height channels) := by
  unfold bufferCovers; infer_instance

/-- The function `CornerDetector::processImage`. An exception of a stage leaves the
function at that stage (lines 228-237 catch nothing). When the image is not empty and
the buffer does not cover it, the stages run on memory outside the buffer, which is
`Undefined`. -/
def processImage (det : CornerDetector) (lib : ImageLibrary) (imageData : List Byte)
    (width height channels : Int) : Except PipelineError GeometricPrimitives :=
  let primitives : GeometricPrimitives := { lines := [], arcs := [], circles := [] }
  let image := imageDataToMat imageData width height channels
  if image.empty then .ok primitives
  else if ¬ bufferCovers imageData width height channels then
    .error PipelineError.Undefined
  else
    match detectCorners det lib image with
    | .error e => .error (PipelineError.Library e)
    | .ok corners =>
      match detectLines det lib image corners with
      | .error e => .error (PipelineError.Library e)
      | .ok lines =>
        let primitives := { primitives with lines := lines }
        match detectCircles det lib image with
        | .error e => .error (PipelineError.Library e)
        | .ok circles =>
          let primitives := { primitives with circles := circles }
          match detectArcs image corners with
          | some arcs => .ok { primitives with arcs := arcs }
          | none => .error PipelineError.Undefined

/-! ## Reference notions used in the statements -/

/-- The aggregate with no line, no arc and no circle. -/
def emptyPrimitives : GeometricPrimitives := { lines := [], arcs := [], circles := [] }

/-- An image library whose calls detect nothing and never throw, for evaluating the
orchestrator on a concrete input. -/
def idleLibrary : ImageLibrary :=
  { cornerFeatures := fun _ _ _ _ _ _ => .ok []
    lineSegments := fun _ _ _ _ _ _ => .ok []
    circleTransform := fun _ _ _ _ _ _ _ => .ok [] }

/-- An image library whose first call, in `detectCorners`, throws `e`, for evaluating
the orchestrator on a concrete input. -/
def throwingLibrary (e : CvException) : ImageLibrary :=
  { cornerFeatures := fun _ _ _ _ _ _ => .error e
    lineSegments := fun _ _ _ _ _ _ => .ok []
    circleTransform := fun _ _ _ _ _ _ _ => .ok [] }

/-- Strict lexicographic order on index triples. -/
def lexLt (s t : Nat × Nat × Nat) : Prop :=
  s.1 < t.1 ∨ (s.1 = t.1 ∧ (s.2.1 < t.2.1 ∨ (s.2.1 = t.2.1 ∧ s.2.2 < t.2.2)))

/-- All index triples `(i, j, k)` with `i < j < k < n`, in lexicographic order: the
triples over `0 .. n - 1` in dictionary order, restricted to the increasing ones. -/
def lexTriples (n : Nat) : List (Nat × Nat × Nat) :=
  ((List.range n).flatMap fun i => (List.range n).flatMap fun j =>
    (List.range n).map fun k => (i, j, k)).filter fun t => t.1 < t.2.1 && t.2.1 < t.2.2

/-- The per-triple fit at an index triple of `corners`: the arc that `fitTriple` gives
for the three points at these indices. -/
def fitAt (corners : List Point2D) (t : Nat × Nat × Nat) : Option Arc :=
  match corners[t.1]?, corners[t.2.1]?, corners[t.2.2]? with
  | some p1, some p2, some p3 => fitTriple p1 p2 p3
  | _, _, _ => none

/-- The index ranges of the three loop headers of `detectArcs` for a vector of `n`
elements, as a list: `i` from `0` below `n - 2`, `j` from `i + 1` below `n - 1`, `k` from
`j + 1` below `n`. -/
def rangeNest (n : Nat) : List (Nat × Nat × Nat) :=
  (List.range' 0 (n - 2)).flatMap fun i => (List.range' (i + 1) (n - 1 - (i + 1))).flatMap
    fun j => (List.range' (j + 1) (n - (j + 1))).map fun k => (i, j, k)

/-! ## Loops -/

theorem forLoop_eq_foldl {σ : Type} (hi : Nat) (body : Nat → σ → σ) (lo : Nat) (s : σ) :
    forLoop hi body lo s = (List.range' lo (hi - lo)).foldl (fun s v => body v s) s := by
  generalize h : hi - lo = m
  induction m generalizing lo s with
  | zero =>
    rw [forLoop]
    have : ¬ lo < hi := by omega
    simp [this]
  | succ m ih =>
    rw [forLoop]
    have hlt : lo < hi := by omega
    simp only [hlt, if_true]
    rw [ih (lo + 1) (body lo s) (by omega), List.range'_succ, List.foldl_cons]

theorem sizeSub_eq (n b : Nat) (hb : b ≤ n) (hn : n < 2 ^ 64) : sizeSub n b = n - b := by
  unfold sizeSub sizeBits
  have hb' : b % 2 ^ 64 = b := Nat.mod_eq_of_lt (by omega)
  rw [hb']
  omega

theorem tripleLoops_eq_foldl {σ : Type} (n : Nat) (h3 : 3 ≤ n) (hn : n < 2 ^ 64)
    (body : Nat → Nat → Nat → σ → σ) (init : σ) :
    tripleLoops n body init =
      (rangeNest n).foldl (fun s t => body t.1 t.2.1 t.2.2 s) init := by
  unfold tripleLoops rangeNest
  rw [sizeSub_eq n 2 (by omega) hn, sizeSub_eq n 1 (by omega) hn, forLoop_eq_foldl]
  simp only [forLoop_eq_foldl, Nat.sub_zero]
  generalize List.range' 0 (n - 2) = li
  induction li generalizing init with
  | nil => simp
  | cons i li ih =>
    simp only [List.foldl_cons, List.flatMap_cons, List.foldl_append]
    rw [ih]
    congr 1
    generalize List.range' (i + 1) (n - 1 - (i + 1)) = lj
    induction lj generalizing init with
    | nil => simp
    | cons j lj ihj =>
      simp only [List.foldl_cons, List.flatMap_cons, List.foldl_append]
      rw [ihj]
      congr 1
      simp [List.foldl_map]

theorem foldl_snoc_eq {α : Type} (l acc : List α) :
    l.foldl (fun acc t => acc ++ [t]) acc = acc ++ l := by
  induction l generalizing acc with
  | nil => simp
  | cons a l ih => simp [ih]

theorem visitedTriples_eq_rangeNest (n : Nat) (h3 : 3 ≤ n) (hn : n < 2 ^ 64) :
    visitedTriples n = rangeNest n := by
  unfold visitedTriples
  rw [tripleLoops_eq_foldl n h3 hn]
  exact (foldl_snoc_eq (rangeNest n) []).trans (by simp)

theorem mem_rangeNest (n : Nat) (t : Nat × Nat × Nat) :
    t ∈ rangeNest n ↔ t.1 < t.2.1 ∧ t.2.1 < t.2.2 ∧ t.2.2 < n := by
  obtain ⟨i, j, k⟩ := t
  simp only [rangeNest, List.mem_flatMap, List.mem_map, List.mem_range'_1, Prod.mk.injEq]
  constructor
  · rintro ⟨i', hi, j', hj, k', hk, rfl, rfl, rfl⟩
    omega
  · rintro ⟨h1, h2, h3⟩
    exact ⟨i, by omega, j, by omega, k, by omega, rfl, rfl, rfl⟩

theorem pairwise_lt_range' (s m : Nat) : (List.range' s m).Pairwise (· < ·) := by
  induction m generalizing s with
  | zero => simp
  | succ m ih =>
    rw [List.range'_succ, List.pairwise_cons]
    refine ⟨?_, ih (s + 1)⟩
    intro a ha
    rw [List.mem_range'_1] at ha
    omega

theorem pairwise_rangeNest (n : Nat) : (rangeNest n).Pairwise lexLt := by
  unfold rangeNest
  rw [List.pairwise_flatMap]
  refine ⟨fun i _ => ?_, ?_⟩
  · rw [List.pairwise_flatMap]
    refine ⟨fun j _ => ?_, ?_⟩
    · rw [List.pairwise_map]
      exact (pairwise_lt_range' _ _).imp fun h => Or.inr ⟨rfl, Or.inr ⟨rfl, h⟩⟩
    · refine (pairwise_lt_range' _ _).imp ?_
      intro j1 j2 hj x hx y hy
      simp only [List.mem_map] at hx hy
      obtain ⟨_, _, rfl⟩ := hx
      obtain ⟨_, _, rfl⟩ := hy
      exact Or.inr ⟨rfl, Or.inl hj⟩
  · refine (pairwise_lt_range' _ _).imp ?_
    intro i1 i2 hi x hx y hy
    simp only [List.mem_flatMap, List.mem_map] at hx hy
    obtain ⟨_, _, _, _, _, _, rfl⟩ := hx
    obtain ⟨_, _, _, _, _, _, rfl⟩ := hy
    exact Or.inl hi

theorem mem_lexTriples (n : Nat) (t : Nat × Nat × Nat) :
    t ∈ lexTriples n ↔ t.1 < t.2.1 ∧ t.2.1 < t.2.2 ∧ t.2.2 < n := by
  obtain ⟨i, j, k⟩ := t
  simp only [lexTriples, List.mem_filter, List.mem_flatMap, List.mem_map, List.mem_range,
    Prod.mk.injEq, Bool.and_eq_true, decide_eq_true_eq]
  constructor
  · rintro ⟨⟨i', hi, j', hj, k', hk, rfl, rfl, rfl⟩, h1, h2⟩
    exact ⟨h1, h2, hk⟩
  · rintro ⟨h1, h2, h3⟩
    exact ⟨⟨i, by omega, j, by omega, k, by omega, rfl, rfl, rfl⟩, h1, h2⟩

theorem pairwise_lexTriples (n : Nat) : (lexTriples n).Pairwise lexLt := by
  unfold lexTriples
  apply List.Pairwise.filter
  rw [List.pairwise_flatMap]
  refine ⟨fun i _ => ?_, ?_⟩
  · rw [List.pairwise_flatMap]
    refine ⟨fun j _ => ?_, ?_⟩
    · rw [List.pairwise_map]
      exact (List.pairwise_lt_range n).imp fun h => Or.inr ⟨rfl, Or.inr ⟨rfl, h⟩⟩
    · refine (List.pairwise_lt_range n).imp ?_
      intro j1 j2 hj x hx y hy
      simp only [List.mem_map] at hx hy
      obtain ⟨_, _, rfl⟩ := hx
      obtain ⟨_, _, rfl⟩ := hy
      exact Or.inr ⟨rfl, Or.inl hj⟩
  · refine (List.pairwise_lt_range n).imp ?_
    intro i1 i2 hi x hx y hy
    simp only [List.mem_flatMap, List.mem_map] at hx hy
    obtain ⟨_, _, _, _, _, _, rfl⟩ := hx
    obtain ⟨_, _, _, _, _, _, rfl⟩ := hy
    exact Or.inl hi

theorem lexLt_irrefl (t : Nat × Nat × Nat) : ¬ lexLt t t := by
  unfold lexLt; omega

theorem lexLt_asymm (s t : Nat × Nat × Nat) (h : lexLt s t) : ¬ lexLt t s := by
  unfold lexLt at *; omega

theorem nodup_of_pairwise_lexLt (l : List (Nat × Nat × Nat)) (h : l.Pairwise lexLt) :
    l.Nodup := by
  refine h.imp ?_
  intro a b hab heq
  subst heq
  exact lexLt_irrefl _ hab

/-- Two lists in strict lexicographic order with the same elements are equal. -/
theorem eq_of_pairwise_lexLt : ∀ (l₁ l₂ : List (Nat × Nat × Nat)),
    l₁.Pairwise lexLt → l₂.Pairwise lexLt → (∀ t, t ∈ l₁ ↔ t ∈ l₂) → l₁ = l₂
  | [], [], _, _, _ => rfl
  | [], b :: l₂, _, _, h => absurd ((h b).2 (List.mem_cons_self _ _)) (List.not_mem_nil _)
  | a :: l₁, [], _, _, h => absurd ((h a).1 (List.mem_cons_self _ _)) (List.not_mem_nil _)
  | a :: l₁, b :: l₂, h₁, h₂, h => by
    rw [List.pairwise_cons] at h₁ h₂
    have hab : a = b := by
      have ha := (h a).1 (List.mem_cons_self _ _)
      have hb := (h b).2 (List.mem_cons_self _ _)
      rw [List.mem_cons] at ha hb
      rcases ha with ha | ha
      · exact ha
      rcases hb with hb | hb
      · exact hb.symm
      exact absurd (h₁.1 b hb) (lexLt_asymm _ _ (h₂.1 a ha))
    subst hab
    congr 1
    refine eq_of_pairwise_lexLt l₁ l₂ h₁.2 h₂.2 fun t => ?_
    constructor
    · intro ht
      have := (h t).1 (List.mem_cons_of_mem _ ht)
      rw [List.mem_cons] at this
      rcases this with rfl | h'
      · exact absurd (h₁.1 _ ht) (lexLt_irrefl _)
      · exact h'
    · intro ht
      have := (h t).2 (List.mem_cons_of_mem _ ht)
      rw [List.mem_cons] at this
      rcases this with rfl | h'
      · exact absurd (h₂.1 _ ht) (lexLt_irrefl _)
      · exact h'

theorem rangeNest_eq_lexTriples (n : Nat) : rangeNest n = lexTriples n :=
  eq_of_pairwise_lexLt _ _ (pairwise_rangeNest n) (pairwise_lexTriples n) fun t => by
    rw [mem_rangeNest, mem_lexTriples]

theorem sum_range'_sub (m : Nat) : ∀ (s c : Nat), c = s + m →
    ((List.range' s m).map fun j => c - j).sum = (m + 1).choose 2 := by
  induction m with
  | zero => intro s c _; simp
  | succ m ih =>
    intro s c hc
    rw [List.range'_succ, List.map_cons, List.sum_cons, ih (s + 1) c (by omega)]
    have h1 : c - s = m + 1 := by omega
    rw [h1, Nat.choose_succ_succ (m + 1) 1, Nat.choose_one_right]

theorem sum_range'_choose (m : Nat) : ∀ (s c : Nat), c = s + m →
    ((List.range' s m).map fun i => (c + 1 - i).choose 2).sum = (m + 2).choose 3 := by
  induction m with
  | zero => intro s c _; simp [Nat.choose]
  | succ m ih =>
    intro s c hc
    rw [List.range'_succ, List.map_cons, List.sum_cons, ih (s + 1) c (by omega)]
    have h1 : c + 1 - s = m + 2 := by omega
    rw [h1, Nat.choose_succ_succ (m + 2) 2]

theorem length_rangeNest (n : Nat) (h3 : 3 ≤ n) : (rangeNest n).length = n.choose 3 := by
  unfold rangeNest
  rw [List.length_flatMap]
  have h : ∀ i ∈ List.range' 0 (n - 2),
      (Function.comp List.length fun i => (List.range' (i + 1) (n - 1 - (i + 1))).flatMap
        fun j => (List.range' (j + 1) (n - (j + 1))).map fun k => (i, j, k)) i
        = (n - 2 + 1 - i).choose 2 := by
    intro i hi
    rw [List.mem_range'_1] at hi
    simp only [Function.comp, List.length_flatMap, List.length_map, List.length_range']
    have h2 : ∀ j ∈ List.range' (i + 1) (n - 1 - (i + 1)),
        (Function.comp (fun l : List (Nat × Nat × Nat) => l.length)
          fun j => (List.range' (j + 1) (n - (j + 1))).map fun k => (i, j, k)) j
          = (n - 1) - j := by
      intro j _
      simp only [Function.comp, List.length_map, List.length_range']
      omega
    have := sum_range'_sub (n - 1 - (i + 1)) (i + 1) (n - 1) (by omega)
    rw [show n - 2 + 1 - i = n - 1 - (i + 1) + 1 by omega, ← this]
    congr 1
    apply List.map_congr_left
    intro j _
    simp only [Function.comp, List.length_map, List.length_range']
    omega
  rw [List.map_congr_left h, sum_range'_choose (n - 2) 0 (n - 2) (by omega)]
  congr 1
  omega

theorem choose_three_eq (n : Nat) : n.choose 3 = n * (n - 1) * (n - 2) / 6 := by
  have h := Nat.choose_eq_descFactorial_div_factorial n 3
  rw [h]
  simp [Nat.descFactorial, Nat.factorial]
  ring_nf

/-! ## The loop body and the output of `detectArcs` -/

theorem tripleBody_eq_fitAt (corners : List Point2D) (i j k : Nat) (arcs : List Arc)
    (hi : i < corners.length) (hj : j < corners.length) (hk : k < corners.length) :
    tripleBody corners i j k arcs = some (arcs ++ (fitAt corners (i, j, k)).toList) := by
  unfold tripleBody fitAt
  simp only [List.getElem?_eq_getElem hi, List.getElem?_eq_getElem hj,
    List.getElem?_eq_getElem hk]
  cases fitTriple corners[i] corners[j] corners[k] <;> simp

theorem foldl_tripleBody (corners : List Point2D) (l : List (Nat × Nat × Nat))
    (hl : ∀ t ∈ l, t.1 < corners.length ∧ t.2.1 < corners.length ∧ t.2.2 < corners.length)
    (arcs : List Arc) :
    l.foldl (fun s t => Option.bind s (tripleBody corners t.1 t.2.1 t.2.2)) (some arcs) =
      some (arcs ++ l.filterMap (fitAt corners)) := by
  induction l generalizing arcs with
  | nil => simp
  | cons t l ih =>
    have ht := hl t (List.mem_cons_self _ _)
    rw [List.foldl_cons, Option.some_bind, tripleBody_eq_fitAt corners _ _ _ arcs ht.1 ht.2.1 ht.2.2,
      ih (fun u hu => hl u (List.mem_cons_of_mem _ hu)), List.filterMap_cons]
    cases fitAt corners (t.1, t.2.1, t.2.2) <;> simp

theorem detectArcs_eq_filterMap (image : Mat) (corners : List Point2D)
    (h3 : 3 ≤ corners.length) (hn : corners.length < 2 ^ 64) :
    detectArcs image corners = some ((lexTriples corners.length).filterMap (fitAt corners)) := by
  unfold detectArcs
  rw [if_neg (by omega), tripleLoops_eq_foldl _ h3 hn, foldl_tripleBody, List.nil_append,
    rangeNest_eq_lexTriples]
  intro t ht
  rw [mem_rangeNest] at ht
  omega

theorem detectArcs_small (image : Mat) (corners : List Point2D) (h : corners.length < 3) :
    detectArcs image corners = some [] := by
  unfold detectArcs
  rw [if_pos h]

theorem lexTriples_small (n : Nat) (h : n < 3) : lexTriples n = [] := by
  rw [List.eq_nil_iff_forall_not_mem]
  intro t ht
  rw [mem_lexTriples] at ht
  omega

/-- For every vector that fits a `size_t` length the output of `detectArcs` is the
per-triple fit mapped over the increasing index triples in lexicographic order. -/
theorem detectArcs_eq (image : Mat) (corners : List Point2D) (hn : corners.length < 2 ^ 64) :
    detectArcs image corners = some ((lexTriples corners.length).filterMap (fitAt corners)) := by
  by_cases h3 : 3 ≤ corners.length
  · exact detectArcs_eq_filterMap image corners h3 hn
  · rw [detectArcs_small image corners (by omega), lexTriples_small _ (by omega)]
    rfl

/-! ## Claims on the enumeration of the arc fitter -/

/-- C4: for a feature-point vector with fewer than three points (`n = 0`, `1` or `2`)
`detectArcs` returns the empty vector and reads nothing outside its input. The size test
comes before the loops, so the loop bound `corners.size() - 2` plays no part in this
result, although for `n < 2` the unsigned subtraction would wrap to `2 ^ 64 - 2 + n`. -/
theorem detectArcs_fewer_than_three (image : Mat) (corners : List Point2D)
    (h : corners.length < 3) :
    detectArcs image corners = some [] ∧
    (corners.length < 2 → sizeSub corners.length 2 = 2 ^ 64 - 2 + corners.length) := by
  refine ⟨?_, fun h2 => ?_⟩
  · unfold detectArcs
    rw [if_pos h]
  · unfold sizeSub sizeBits
    omega

theorem detectArcs_fewer_than_three_witness :
    detectArcs Mat.default [⟨0, 0⟩] = some [] ∧ sizeSub 1 2 = 2 ^ 64 - 2 + 1 :=
  ⟨(detectArcs_fewer_than_three Mat.default [⟨0, 0⟩] (by decide)).1,
    (detectArcs_fewer_than_three Mat.default [⟨0, 0⟩] (by decide)).2 (by decide)⟩

theorem sizeMul_total (W H c : Nat) (h : W * H * c < 2 ^ 64) (hc : 0 < c) :
    sizeMul (sizeMul (sizeOfInt (H : Int)) (sizeOfInt (W : Int))) c = W * H * c := by
  have hWH : W * H < 2 ^ 64 := lt_of_le_of_lt (Nat.le_mul_of_pos_right _ hc) h
  have e : ∀ n : Nat, sizeOfInt (n : Int) = n % 2 ^ 64 := by
    intro n
    unfold sizeOfInt sizeBits
    omega
  unfold sizeMul
  rw [e, e]
  unfold sizeBits
  rw [← Nat.mul_mod, Nat.mul_comm H W, Nat.mod_eq_of_lt hWH, Nat.mod_eq_of_lt h]

theorem matToImageData_ofData (buffer : List Byte) (W H c : Nat) (hc : 0 < c)
    (hlen : buffer.length = W * H * c) (h64 : buffer.length < 2 ^ 64) :
    matToImageData (Mat.ofData (H : Int) (W : Int) c buffer) = buffer := by
  unfold matToImageData
  simp only [Mat.isContinuous, Mat.ofData, if_true, Mat.bytes, Option.getD_some, Mat.total,
    Mat.elemSize]
  rw [sizeMul_total W H c (hlen ▸ h64) hc, ← hlen, List.take_length]

/-- C7: for every byte buffer, every `width ≥ 0`, `height ≥ 0` and `channels` among 1, 3,
4 with `width * height * channels` equal to the length of the buffer, converting the
buffer to a matrix and back gives the buffer again, byte for byte. -/
theorem matToImageData_imageDataToMat (buffer : List Byte) (width height channels : Int)
    (hw : 0 ≤ width) (hh : 0 ≤ height) (hc : channels = 1 ∨ channels = 3 ∨ channels = 4)
    (hlen : (buffer.length : Int) = width * height * channels)
    (h64 : buffer.length < 2 ^ 64) :
    matToImageData (imageDataToMat buffer width height channels) = buffer := by
  obtain ⟨W, rfl⟩ := Int.eq_ofNat_of_zero_le hw
  obtain ⟨H, rfl⟩ := Int.eq_ofNat_of_zero_le hh
  unfold imageDataToMat
  rcases hc with rfl | rfl | rfl
  · rw [if_pos rfl]
    exact matToImageData_ofData buffer W H 1 (by decide) (by exact_mod_cast hlen) h64
  · rw [if_neg (by decide), if_pos rfl]
    exact matToImageData_ofData buffer W H 3 (by decide) (by exact_mod_cast hlen) h64
  · rw [if_neg (by decide), if_neg (by decide), if_pos rfl]
    exact matToImageData_ofData buffer W H 4 (by decide) (by exact_mod_cast hlen) h64

theorem matToImageData_imageDataToMat_witness :
    matToImageData (imageDataToMat [10, 20, 30, 40, 50, 60] 2 1 3) = [10, 20, 30, 40, 50, 60] :=
  matToImageData_imageDataToMat [10, 20, 30, 40, 50, 60] 2 1 3 (by decide) (by decide)
    (Or.inr (Or.inl rfl)) (by decide) (by decide)

/-! ## Claims on the orchestrator -/

theorem imageDataToMat_bad_channels (buffer : List Byte) (width height channels : Int)
    (hc : channels ≠ 1 ∧ channels ≠ 3 ∧ channels ≠ 4) :
    imageDataToMat buffer width height channels = Mat.default := by
  unfold imageDataToMat
  rw [if_neg hc.1, if_neg hc.2.1, if_neg hc.2.2]

theorem processImage_bad_channels (det : CornerDetector) (lib : ImageLibrary)
    (buffer : List Byte) (width height channels : Int)
    (hc : channels ≠ 1 ∧ channels ≠ 3 ∧ channels ≠ 4) :
    processImage det lib buffer width height channels = .ok emptyPrimitives := by
  unfold processImage
  simp only [imageDataToMat_bad_channels buffer width height channels hc]
  rfl

theorem processImage_ne_invalidFormat (det : CornerDetector) (lib : ImageLibrary)
    (buffer : List Byte) (width height channels : Int) :
    processImage det lib buffer width height channels ≠
      .error PipelineError.InvalidFormat := by
  unfold processImage
  simp only
  split_ifs <;> repeat' split
  all_goals (intro h; cases h)

theorem total_imageDataToMat (buffer : List Byte) (W H : Nat) (channels : Int)
    (hc : channels = 1 ∨ channels = 3 ∨ channels = 4)
    (hlen : (buffer.length : Int) = (W : Int) * (H : Int) * channels)
    (h64 : buffer.length < 2 ^ 64) :
    (imageDataToMat buffer (W : Int) (H : Int) channels).data = some buffer ∧
      (imageDataToMat buffer (W : Int) (H : Int) channels).total = W * H := by
  have hWH : W * H < 2 ^ 64 := by
    have h1 : ((W * H : Nat) : Int) ≤ (buffer.length : Int) := by
      rw [hlen]
      push_cast
      rcases hc with rfl | rfl | rfl <;> nlinarith [mul_nonneg (Int.ofNat_nonneg W) (Int.ofNat_nonneg H)]
    have h2 : W * H ≤ buffer.length := by exact_mod_cast h1
    omega
  have e : ∀ n : Nat, sizeOfInt (n : Int) = n % 2 ^ 64 := by
    intro n
    unfold sizeOfInt sizeBits
    omega
  have htot : sizeMul (sizeOfInt (H : Int)) (sizeOfInt (W : Int)) = W * H := by
    unfold sizeMul
    rw [e, e]
    unfold sizeBits
    rw [← Nat.mul_mod, Nat.mul_comm H W, Nat.mod_eq_of_lt hWH]
  unfold imageDataToMat
  rcases hc with rfl | rfl | rfl
  · rw [if_pos rfl]
    exact ⟨rfl, htot⟩
  · rw [if_neg (by decide), if_pos rfl]
    exact ⟨rfl, htot⟩
  · rw [if_neg (by decide), if_neg (by decide), if_pos rfl]
    exact ⟨rfl, htot⟩

theorem empty_imageDataToMat (buffer : List Byte) (width height channels : Int)
    (hw : 0 ≤ width) (hh : 0 ≤ height) (hc : channels = 1 ∨ channels = 3 ∨ channels = 4)
    (hlen : (buffer.length : Int) = width * height * channels)
    (h64 : buffer.length < 2 ^ 64) :
    (imageDataToMat buffer width height channels).empty = true ↔ width * height = 0 := by
  obtain ⟨W, rfl⟩ := Int.eq_ofNat_of_zero_le hw
  obtain ⟨H, rfl⟩ := Int.eq_ofNat_of_zero_le hh
  obtain ⟨hdata, htot⟩ := total_imageDataToMat buffer W H channels hc hlen h64
  unfold Mat.empty
  rw [hdata, htot]
  simp only [Option.isNone_some, Bool.false_or, beq_iff_eq]
  exact_mod_cast Iff.rfl

theorem bufferCovers_of_length (buffer : List Byte) (width height channels : Int)
    (hw : 0 ≤ width) (hh : 0 ≤ height)
    (hlen : (buffer.length : Int) = width * height * channels) :
    bufferCovers buffer width height channels :=
  ⟨hw, hh, hlen.ge⟩

/-- What `processImage` does once the image is not empty and the buffer covers it:
the three stages in order, the first exception leaving the function. -/
theorem processImage_stages (det : CornerDetector) (lib : ImageLibrary) (buffer : List Byte)
    (width height channels : Int)
    (hne : (imageDataToMat buffer width height channels).empty = false)
    (hcov : bufferCovers buffer width height channels) :
    (∀ e, detectCorners det lib (imageDataToMat buffer width height channels) = .error e →
      processImage det lib buffer width height channels = .error (PipelineError.Library e)) ∧
    (∀ corners e,
      detectCorners det lib (imageDataToMat buffer width height channels) = .ok corners →
      detectLines det lib (imageDataToMat buffer width height channels) corners = .error e →
      processImage det lib buffer width height channels = .error (PipelineError.Library e)) ∧
    (∀ corners lines e,
      detectCorners det lib (imageDataToMat buffer width height channels) = .ok corners →
      detectLines det lib (imageDataToMat buffer width height channels) corners = .ok lines →
      detectCircles det lib (imageDataToMat buffer width height channels) = .error e →
      processImage det lib buffer width height channels = .error (PipelineError.Library e)) ∧
    (∀ corners lines circles,
      detectCorners det lib (imageDataToMat buffer width height channels) = .ok corners →
      detectLines det lib (imageDataToMat buffer width height channels) corners = .ok lines →
      detectCircles det lib (imageDataToMat buffer width height channels) = .ok circles →
      corners.length < 2 ^ 64 →
      ∃ arcs, detectArcs (imageDataToMat buffer width height channels) corners = some arcs ∧
        processImage det lib buffer width height channels =
          .ok { lines := lines, arcs := arcs, circles := circles }) := by
  refine ⟨?_, ?_, ?_, ?_⟩
  · intro e h1
    unfold processImage
    simp only [hne, hcov, h1, not_true_eq_false, if_false, Bool.false_eq_true]
  · intro corners e h1 h2
    unfold processImage
    simp only [hne, hcov, h1, h2, not_true_eq_false, if_false, Bool.false_eq_true]
  · intro corners lines e h1 h2 h3
    unfold processImage
    simp only [hne, hcov, h1, h2, h3, not_true_eq_false, if_false, Bool.false_eq_true]
  · intro corners lines circles h1 h2 h3 hn
    have harcs := detectArcs_eq (imageDataToMat buffer width height channels) corners hn
    refine ⟨_, harcs, ?_⟩
    unfold processImage
    simp only [hne, hcov, h1, h2, h3, harcs, not_true_eq_false, if_false, Bool.false_eq_true]

end DXFScanner
